import Mathlib

/-!
Verification of the PocketBase export/import scripts
(`skills/pocketbase/scripts/export_data.py` and
`skills/pocketbase/scripts/import_data.py`).

The two Python scripts are shallowly embedded as pure Lean functions.

* JSON values are modelled by the inductive type `Json` (numbers as `Int`;
  no claim depends on floating-point values).
* The network is an oracle: for the exporter a function from the request
  URL to a `GetResult`, for the importer a function from the index of the
  POST request (0-based, counted over the whole run) to a `PostResult`.
  The constructor `raised` models the underlying HTTP client raising an
  exception (connection error, timeout, ...) instead of returning a
  response.
* Python exceptions are modelled by the error side of `Except PyErr`;
  process-level behaviour is an `Outcome`: `code n` for a process that
  terminates normally or via `sys.exit(n)`, `raised e` for a process
  terminated by an uncaught exception (CPython then exits with a traceback
  and a non-zero status, which is in particular not exit status 0).
* Side effects (lines printed to stdout, files written, POST requests
  issued) are threaded through explicit state records, so that they are
  observable even for runs that end in an uncaught exception.
* The filesystem seen by the exporter is a flat association of paths to
  entries (`FsEntry.file`/`FsEntry.dir`); parent directories are assumed
  to exist and writes into the created output directory are assumed to
  succeed, which is the only situation the scripts put themselves in.
-/

/-- JSON values, as produced by Python's `json.load`/`response.json()`.
Objects are association lists; Python dicts produced by `json.load` have
pairwise distinct keys. -/
inductive Json where
  | null
  | bool (b : Bool)
  | num (n : Int)
  | str (s : String)
  | arr (items : List Json)
  | obj (fields : List (String × Json))

/-- Python exceptions that the scripts can raise (they contain no
`try`/`except`, so every one of these propagates and kills the process). -/
inductive PyErr where
  | requestError
  | jsonDecodeError
  | attributeError
  | typeError
  | fileExistsError
deriving DecidableEq

/-- Process-level outcome of running a script's `main`: `code n` for a
normal termination or `sys.exit(n)`, `raised e` for an uncaught exception. -/
inductive Outcome where
  | code (n : Nat)
  | raised (e : PyErr)
deriving DecidableEq

/-- Python truthiness (`if not records:`) for JSON values. -/
def Json.truthy : Json → Bool
  | .null => false
  | .bool b => b
  | .num n => n != 0
  | .str s => s != ""
  | .arr items => !items.isEmpty
  | .obj fields => !fields.isEmpty

/-- Python `value.get(key, dflt)`: on a dict returns the value bound to the
key (or the default), on any non-dict value raises `AttributeError`. -/
def pyDictGet (v : Json) (key : String) (dflt : Json) : Except PyErr Json :=
  match v with
  | .obj fields => .ok ((fields.lookup key).getD dflt)
  | _ => .error .attributeError

/-- Python `len(v)`: defined for sized values (lists, strings, dicts),
raises `TypeError` otherwise. -/
def pyLen : Json → Except PyErr Nat
  | .arr items => .ok items.length
  | .str s => .ok s.length
  | .obj fields => .ok fields.length
  | _ => .error .typeError

/-- Python `s.rstrip('/')`: removes every trailing slash. -/
def rstripSlashes (s : String) : String :=
  String.mk ((s.toList.reverse.dropWhile (fun c => c = '/')).reverse)

/-- The records endpoint both scripts talk to:
`f"{base_url}/api/collections/{collection_name}/records"`. -/
def urlOf (base_url collection_name : String) : String :=
  base_url ++ "/api/collections/" ++ collection_name ++ "/records"

/-- The separator line `"-" * 50` printed by both scripts. -/
def dashes : String := String.mk (List.replicate 50 '-')

/-- Value of `sys.argv[1].rstrip('/')`, the base URL of both scripts. -/
def baseOf (argv : List String) : String :=
  rstripSlashes ((argv[1]?).getD "")

/-- Result of `requests.get(url)` followed by `response.json()` when the
body is consumed: either the client raised, or a response arrived with a
status code and a body whose JSON parse either succeeded or would raise. -/
inductive GetResult where
  | raised
  | resp (status : Nat) (body : Except Unit Json)

/-- Result of `requests.post(url, json=record)`: either the client raised,
or a response arrived with a status code and a text body. -/
inductive PostResult where
  | raised
  | resp (status : Nat) (text : String)

/-- An entry of the exporter's filesystem model. -/
inductive FsEntry where
  | file (content : Json)
  | dir

/-- Observable state of an exporter run: the filesystem, the chronological
log of file writes `(path, value)`, and the lines printed to stdout. -/
structure ExpState where
  fs : List (String × FsEntry)
  written : List (String × Json)
  output : List String

/-- Update of the flat filesystem at one path. -/
def fsSet (fs : List (String × FsEntry)) (path : String) (e : FsEntry) :
    List (String × FsEntry) :=
  (path, e) :: fs.filter (fun p => p.1 != path)

/-- Python `Path(p).mkdir(exist_ok=True)`: succeeds if the path is an
existing directory or absent, raises `FileExistsError` if an existing
non-directory file occupies the path. -/
def mkdirExistOk (fs : List (String × FsEntry)) (path : String) :
    Except PyErr (List (String × FsEntry)) :=
  match fs.lookup path with
  | some .dir => .ok fs
  | some (.file _) => .error .fileExistsError
  | none => .ok (fsSet fs path .dir)

namespace ExportData

/-- The hardcoded collection list of `export_data.py`. -/
def collections : List String :=
  ["users", "posts", "comments", "products", "orders"]

/-- Value of the exporter's `output_dir`:
`sys.argv[2] if len(sys.argv) > 2 else "pocketbase_export"`. -/
def outDirOf (argv : List String) : String :=
  if argv.length > 2 then (argv[2]?).getD "" else "pocketbase_export"

/-- Embedding of `export_collection(base_url, collection_name, output_dir)`.
The oracle `get` gives the result of `requests.get` at each URL.  On a 200
response the body is parsed, written to `{output_dir}/{name}.json`, and the
success line is printed with `len(data.get('items', []))`; on any other
status the failure line is printed and `False` is returned.  Note the file
write happens before `data.get('items', [])` is evaluated, so a non-dict
body raises only after the file exists. -/
def export_collection (get : String → GetResult)
    (base_url collection_name output_dir : String) (s : ExpState) :
    Except PyErr Bool × ExpState :=
  match get (urlOf base_url collection_name) with
  | .raised => (.error .requestError, s)
  | .resp status body =>
    if status = 200 then
      match body with
      | .error _ => (.error .jsonDecodeError, s)
      | .ok data =>
        let path := output_dir ++ "/" ++ collection_name ++ ".json"
        let s1 : ExpState :=
          { s with
            fs := fsSet s.fs path (.file data)
            written := s.written ++ [(path, data)] }
        match pyDictGet data "items" (.arr []) with
        | .error e => (.error e, s1)
        | .ok items =>
          match pyLen items with
          | .error e => (.error e, s1)
          | .ok n =>
            (.ok true,
             { s1 with
               output := s1.output ++
                 ["✓ Exported " ++ collection_name ++ ": " ++ toString n
                   ++ " records"] })
    else
      (.ok false,
       { s with
         output := s.output ++
           ["✗ Failed to export " ++ collection_name ++ ": "
             ++ toString status] })

/-- The `for collection in collections:` loop of the exporter's `main`,
accumulating `success_count`. -/
def exportLoop (get : String → GetResult) (base_url output_dir : String) :
    List String → Nat → ExpState → Except PyErr Nat × ExpState
  | [], succ, s => (.ok succ, s)
  | name :: rest, succ, s =>
    match export_collection get base_url name output_dir s with
    | (.ok true, s1) => exportLoop get base_url output_dir rest (succ + 1) s1
    | (.ok false, s1) => exportLoop get base_url output_dir rest succ s1
    | (.error e, s1) => (.error e, s1)

/-- Embedding of the exporter's `main()`. -/
def main (get : String → GetResult) (argv : List String) (s : ExpState) :
    Outcome × ExpState :=
  if argv.length < 2 then
    (.code 1,
     { s with
       output := s.output ++
         ["Usage: python export_data.py <pocketbase_url> [output_dir]",
          "Example: python export_data.py http://127.0.0.1:8090"] })
  else
    let base_url := baseOf argv
    let output_dir := outDirOf argv
    match mkdirExistOk s.fs output_dir with
    | .error e => (.raised e, s)
    | .ok fs1 =>
      let s2 : ExpState :=
        { s with
          fs := fs1
          output := s.output ++
            ["Exporting from " ++ base_url ++ " to " ++ output_dir ++ "/",
             dashes] }
      match exportLoop get base_url output_dir collections 0 s2 with
      | (.error e, s3) => (.raised e, s3)
      | (.ok succ, s3) =>
        (.code 0,
         { s3 with
           output := s3.output ++
             [dashes,
              "Export complete: " ++ toString succ ++ "/"
                ++ toString collections.length ++ " collections exported",
              "Output saved to: " ++ output_dir ++ "/"] })

end ExportData

namespace ImportData

/-- Observable state of an importer run: the POST requests issued so far
(completed request/response round-trips, as `(url, body)`) and the lines
printed to stdout. -/
structure ImpState where
  requests : List (String × Json)
  output : List String

/-- Python `fields.pop(key, None)` on a dict, as a pure operation: the
binding of `key` is removed, nothing else changes, and the operation
succeeds whether or not the key was present. -/
def popKey (fields : List (String × Json)) (key : String) :
    List (String × Json) :=
  fields.filter (fun p => p.1 != key)

/-- The three `record.pop(...)` lines of `import_collection`: the system
fields stripped from every record before it is posted. -/
def stripFields (fields : List (String × Json)) : List (String × Json) :=
  popKey (popKey (popKey fields "id") "created") "updated"

/-- The `for record in records:` loop of `import_collection`: each record
must be a dict (a non-dict record raises `AttributeError` at
`record.pop`), is stripped of its system fields and posted; a 200/201
response counts as a success, any other response is logged and counted as
a failure; a raising `requests.post` aborts the run. -/
def importRecords (post : Nat → PostResult) (url : String) :
    List Json → Nat → ImpState → Except PyErr Nat × ImpState
  | [], succ, s => (.ok succ, s)
  | record :: rest, succ, s =>
    match record with
    | .obj fields =>
      let body := Json.obj (stripFields fields)
      match post s.requests.length with
      | .raised => (.error .requestError, s)
      | .resp status text =>
        let s1 : ImpState := { s with requests := s.requests ++ [(url, body)] }
        if status = 200 ∨ status = 201 then
          importRecords post url rest (succ + 1) s1
        else
          importRecords post url rest succ
            { s1 with
              output := s1.output ++
                ["  ✗ Failed to import record: " ++ toString status
                  ++ " - " ++ text] }
    | _ => (.error .attributeError, s)

/-- Embedding of `import_collection(base_url, collection_name, import_file)`.
The argument `parsed` is the result of `json.load` on the file (its error
side models an unreadable or invalid-JSON file, which raises).  A falsy
`items` value (absent, or an empty list — Python truthiness) short-circuits
with the "No records found" line and `True`.  A truthy non-list `items`
value always ends in an uncaught exception in Python (`TypeError` when the
value is not iterable, otherwise `AttributeError` at `record.pop` on the
first element, a character or a key string); it is modelled as raising
before any request is issued. -/
def import_collection (post : Nat → PostResult)
    (base_url collection_name : String) (parsed : Except Unit Json)
    (s : ImpState) : Except PyErr Bool × ImpState :=
  match parsed with
  | .error _ => (.error .jsonDecodeError, s)
  | .ok data =>
    match pyDictGet data "items" (.arr []) with
    | .error e => (.error e, s)
    | .ok records =>
      if records.truthy = false then
        (.ok true,
         { s with
           output := s.output ++ ["  No records found in " ++ collection_name] })
      else
        match records with
        | .arr items =>
          match importRecords post (urlOf base_url collection_name) items 0 s with
          | (.error e, s1) => (.error e, s1)
          | (.ok succ, s1) =>
            (.ok (succ == items.length),
             { s1 with
               output := s1.output ++
                 ["  ✓ Imported " ++ toString succ ++ "/"
                   ++ toString items.length ++ " records to "
                   ++ collection_name] })
        | _ => (.error .typeError, s)

/-- The import directory: whether `Path(import_dir).exists()`, and the
directory listing as an association of file names to the result of
`json.load` on each file (the listing is assumed to contain regular
files). -/
structure Dir where
  present : Bool
  listing : List (String × Except Unit Json)

/-- Structural lexicographic comparison of char lists by code points; the
order Python's `<` induces on strings sharing no surrogate weirdness. -/
def lexLe : List Char → List Char → Bool
  | [], _ => true
  | _ :: _, [] => false
  | a :: as, b :: bs => if a = b then lexLe as bs else decide (a < b)

/-- Python string `<=`: lexicographic by code points. -/
def strLe (a b : String) : Bool := lexLe a.toList b.toList

/-- Python `sorted(...)` on the globbed file names: a stable ascending
sort under the lexicographic order (paths sharing the directory prefix
compare exactly as their file names do). -/
def sortStrings (l : List String) : List String :=
  List.insertionSort (fun a b => strLe a b = true) l

/-- Matching of a file name against the glob pattern `*.json`
(`fnmatch` semantics: any name ending in `.json`, hidden files included). -/
def isJsonName (n : String) : Bool :=
  n.toList.reverse.take 5 == ['n', 'o', 's', 'j', '.']

/-- Python `Path(n).stem` for a name matching `*.json`: the name without
its final `.json` suffix, except that the bare name `.json` has no suffix
and is its own stem. -/
def jsonStem (n : String) : String :=
  if n = ".json" then n else n.dropRight 5

/-- Reading and parsing one file of the directory (`json.load`). -/
def readFile (dir : Dir) (n : String) : Except Unit Json :=
  (dir.listing.lookup n).getD (.error ())

/-- The `for json_file in sorted(json_files):` loop of the importer's
`main`, accumulating `success_count`. -/
def importLoop (post : Nat → PostResult) (base_url : String) (dir : Dir) :
    List String → Nat → ImpState → Except PyErr Nat × ImpState
  | [], succ, s => (.ok succ, s)
  | n :: rest, succ, s =>
    match import_collection post base_url (jsonStem n) (readFile dir n) s with
    | (.ok true, s1) => importLoop post base_url dir rest (succ + 1) s1
    | (.ok false, s1) => importLoop post base_url dir rest succ s1
    | (.error e, s1) => (.error e, s1)

/-- Embedding of the importer's `main()`. -/
def main (post : Nat → PostResult) (dir : Dir) (argv : List String)
    (s : ImpState) : Outcome × ImpState :=
  if argv.length < 3 then
    (.code 1,
     { s with
       output := s.output ++
         ["Usage: python import_data.py <pocketbase_url> <import_dir>",
          "Example: python import_data.py http://127.0.0.1:8090 pocketbase_export"] })
  else
    let base_url := baseOf argv
    let import_dir := (argv[2]?).getD ""
    if dir.present = false then
      (.code 1,
       { s with
         output := s.output ++
           ["Error: Directory " ++ import_dir ++ " does not exist"] })
    else
      let json_files := (dir.listing.map Prod.fst).filter isJsonName
      if json_files.isEmpty then
        (.code 1,
         { s with
           output := s.output ++
             ["Error: No JSON files found in " ++ import_dir] })
      else
        let s1 : ImpState :=
          { s with
            output := s.output ++
              ["Importing to " ++ base_url ++ " from " ++ import_dir ++ "/",
               dashes] }
        match importLoop post base_url dir (sortStrings json_files) 0 s1 with
        | (.error e, s2) => (.raised e, s2)
        | (.ok succ, s2) =>
          (.code 0,
           { s2 with
             output := s2.output ++
               [dashes,
                "Import complete: " ++ toString succ ++ "/"
                  ++ toString json_files.length ++ " collections imported"] })

end ImportData

/-! Predicates used by the claim statements. -/

/-- A POST outcome that `import_collection` counts as a success:
a response with status 200 or 201. -/
def postOk : PostResult → Bool
  | .raised => false
  | .resp status _ => status == 200 || status == 201

/-- The successfully parsed body of a 200 export response, if any. -/
def get200 : GetResult → Option Json
  | .resp status body =>
    match body with
    | .ok j => if status = 200 then some j else none
    | .error _ => none
  | .raised => none

/-- A GET outcome under which `export_collection` raises no exception: the
client returned a response, and a 200 body parses to a dict whose `items`
value (defaulting to the empty list) supports `len`. -/
def goodGet (g : GetResult) : Prop :=
  ∃ status body, g = .resp status body ∧
    (status = 200 → ∃ fields n, body = .ok (Json.obj fields) ∧
      pyLen ((fields.lookup "items").getD (Json.arr [])) = .ok n)

/-- A parsed collection file on which `import_collection` raises no
exception of its own: valid JSON, a dict, and an `items` value that is
either falsy or a list of dicts. -/
def goodFile (parsed : Except Unit Json) : Prop :=
  ∃ fields, parsed = .ok (Json.obj fields) ∧
    (((fields.lookup "items").getD (Json.arr [])).truthy = false ∨
     ∃ records, (fields.lookup "items").getD (Json.arr []) = Json.arr records ∧
       ∀ r ∈ records, ∃ f, r = Json.obj f)

namespace ImportData

theorem mem_popKey (fields : List (String × Json)) (key : String)
    (q : String × Json) :
    q ∈ popKey fields key ↔ q ∈ fields ∧ q.1 ≠ key := by
  simp [popKey, List.mem_filter, bne_iff_ne]

theorem mem_stripFields (fields : List (String × Json)) (q : String × Json) :
    q ∈ stripFields fields ↔
      q ∈ fields ∧ q.1 ≠ "id" ∧ q.1 ≠ "created" ∧ q.1 ≠ "updated" := by
  simp only [stripFields, mem_popKey]
  tauto

end ImportData

namespace ImportData

/-- Behaviour of the record loop when every record is a dict and every
POST completes with a response: the loop finishes normally, issues one
request per record, counts at most one success per record, counts all of
them exactly when every response was a 200/201, and logs every failing
record's status and body. -/
theorem importRecords_spec (post : Nat → PostResult) (url : String)
    (records : List Json) :
    ∀ (succ : Nat) (s : ImpState),
      (∀ r ∈ records, ∃ f, r = Json.obj f) →
      (∀ n, post n ≠ .raised) →
      ∃ k s1,
        importRecords post url records succ s = (.ok (succ + k), s1) ∧
        k ≤ records.length ∧
        s1.requests.length = s.requests.length + records.length ∧
        ((k = records.length) ↔
          ∀ i < records.length, postOk (post (s.requests.length + i)) = true) ∧
        (∀ l ∈ s.output, l ∈ s1.output) ∧
        (∀ i st txt, i < records.length →
          post (s.requests.length + i) = .resp st txt →
          postOk (.resp st txt) = false →
          ("  ✗ Failed to import record: " ++ toString st ++ " - " ++ txt)
            ∈ s1.output) := by
  induction records with
  | nil =>
    intro succ s _ _
    refine ⟨0, s, by simp [importRecords], by simp, by simp, by simp,
      fun l hl => hl, ?_⟩
    intro i st txt hi
    exact absurd hi (by simp)
  | cons record rest ih =>
    intro succ s hobj hresp
    obtain ⟨f, rfl⟩ := hobj record (List.mem_cons_self record rest)
    have hlen0 : (Json.obj f :: rest).length = rest.length + 1 := by
      simp
    cases hp : post s.requests.length with
    | raised => exact absurd hp (hresp _)
    | resp st txt =>
      by_cases hok : st = 200 ∨ st = 201
      · have hpost0 : postOk (PostResult.resp st txt) = true := by
          rcases hok with h | h <;> simp [postOk, h]
        obtain ⟨k1, s1, heq, hk1, hlen, hiff, hout, hfail⟩ :=
          ih (succ + 1)
            ⟨s.requests ++ [(url, Json.obj (stripFields f))], s.output⟩
            (fun r hr => hobj r (List.mem_cons_of_mem _ hr)) hresp
        have hreq2 :
            (⟨s.requests ++ [(url, Json.obj (stripFields f))], s.output⟩ :
              ImpState).requests.length = s.requests.length + 1 := by
          simp
        rw [hreq2] at hlen hiff hfail
        refine ⟨k1 + 1, s1, ?_, ?_, ?_, ?_, hout, ?_⟩
        · simp only [importRecords, hp, if_pos hok]
          rw [heq]
          have harith : succ + 1 + k1 = succ + (k1 + 1) := by omega
          rw [harith]
        · rw [hlen0]; omega
        · rw [hlen0]; omega
        · rw [hlen0]
          constructor
          · intro hk i hi
            match i with
            | 0 =>
              rw [Nat.add_zero, hp]
              exact hpost0
            | j + 1 =>
              have e : s.requests.length + (j + 1) =
                  s.requests.length + 1 + j := by omega
              rw [e]
              exact hiff.mp (by omega) j (by omega)
          · intro hall
            have hall1 : ∀ i < rest.length,
                postOk (post (s.requests.length + 1 + i)) = true := by
              intro j hj
              have e : s.requests.length + 1 + j =
                  s.requests.length + (j + 1) := by omega
              rw [e]
              exact hall (j + 1) (by omega)
            have := hiff.mpr hall1
            omega
        · intro i st1 txt1 hi hpost1 hbad
          rw [hlen0] at hi
          match i with
          | 0 =>
            rw [Nat.add_zero, hp] at hpost1
            cases hpost1
            rw [hpost0] at hbad
            cases hbad
          | j + 1 =>
            have e : s.requests.length + (j + 1) =
                s.requests.length + 1 + j := by omega
            rw [e] at hpost1
            exact hfail j st1 txt1 (by omega) hpost1 hbad
      · have hbad0 : postOk (PostResult.resp st txt) = false := by
          simp only [postOk]
          rw [Bool.or_eq_false_iff, beq_eq_false_iff_ne, beq_eq_false_iff_ne]
          exact ⟨fun h => hok (Or.inl h), fun h => hok (Or.inr h)⟩
        obtain ⟨k1, s1, heq, hk1, hlen, hiff, hout, hfail⟩ :=
          ih succ
            ⟨s.requests ++ [(url, Json.obj (stripFields f))],
             s.output ++
               ["  ✗ Failed to import record: " ++ toString st ++ " - " ++ txt]⟩
            (fun r hr => hobj r (List.mem_cons_of_mem _ hr)) hresp
        have hreq2 :
            (⟨s.requests ++ [(url, Json.obj (stripFields f))],
              s.output ++
                ["  ✗ Failed to import record: " ++ toString st ++ " - " ++ txt]⟩ :
              ImpState).requests.length = s.requests.length + 1 := by
          simp
        have hout2 : ∀ l ∈ s.output ++
            ["  ✗ Failed to import record: " ++ toString st ++ " - " ++ txt],
            l ∈ s1.output := hout
        rw [hreq2] at hlen hiff hfail
        refine ⟨k1, s1, ?_, ?_, ?_, ?_, ?_, ?_⟩
        · simp only [importRecords, hp, if_neg hok]
          exact heq
        · rw [hlen0]; omega
        · rw [hlen0]; omega
        · rw [hlen0]
          refine iff_of_false (by omega) ?_
          intro hall
          have := hall 0 (by omega)
          rw [Nat.add_zero, hp, hbad0] at this
          cases this
        · intro l hl
          exact hout2 l (List.mem_append.mpr (Or.inl hl))
        · intro i st1 txt1 hi hpost1 hbad
          rw [hlen0] at hi
          match i with
          | 0 =>
            rw [Nat.add_zero, hp] at hpost1
            cases hpost1
            refine hout2 _ (List.mem_append.mpr (Or.inr ?_))
            exact List.mem_singleton.mpr rfl
          | j + 1 =>
            have e : s.requests.length + (j + 1) =
                s.requests.length + 1 + j := by omega
            rw [e] at hpost1
            exact hfail j st1 txt1 (by omega) hpost1 hbad

end ImportData

namespace ImportData

/-- A collection file whose `items` value is absent or the empty list
takes the early-return path: no request, success, and the
"No records found" line. -/
theorem import_collection_no_records (post : Nat → PostResult)
    (base_url collection_name : String) (fields : List (String × Json))
    (s : ImpState)
    (h : fields.lookup "items" = none ∨
      fields.lookup "items" = some (Json.arr [])) :
    import_collection post base_url collection_name (.ok (Json.obj fields)) s =
      (.ok true,
       { s with
         output := s.output ++
           ["  No records found in " ++ collection_name] }) := by
  have hitems : ((fields.lookup "items").getD (Json.arr [])).truthy = false := by
    rcases h with h | h <;> rw [h] <;> rfl
  simp only [import_collection, pyDictGet]
  rw [if_pos hitems]

/-- On a good file, with every POST answered, `import_collection` returns
normally. -/
theorem import_collection_ok (post : Nat → PostResult)
    (base_url collection_name : String) (parsed : Except Unit Json)
    (s : ImpState) (hfile : goodFile parsed)
    (hresp : ∀ n, post n ≠ .raised) :
    ∃ b s1,
      import_collection post base_url collection_name parsed s = (.ok b, s1) := by
  obtain ⟨fields, rfl, hitems⟩ := hfile
  simp only [import_collection, pyDictGet]
  by_cases ht : ((fields.lookup "items").getD (Json.arr [])).truthy = false
  · rw [if_pos ht]
    exact ⟨true, _, rfl⟩
  · rw [if_neg ht]
    rcases hitems with h | ⟨records, hrec, hobj⟩
    · exact absurd h ht
    · obtain ⟨k, s1, heq, _⟩ :=
        importRecords_spec post (urlOf base_url collection_name) records 0 s
          hobj hresp
      simp only [hrec, heq]
      exact ⟨_, _, rfl⟩

/-- On good files, with every POST answered, the collection loop returns
normally. -/
theorem importLoop_ok (post : Nat → PostResult) (base_url : String)
    (dir : Dir) (names : List String) :
    ∀ (succ : Nat) (s : ImpState),
      (∀ n ∈ names, goodFile (readFile dir n)) →
      (∀ n, post n ≠ .raised) →
      ∃ k s1, importLoop post base_url dir names succ s = (.ok k, s1) := by
  induction names with
  | nil => intro succ s _ _; exact ⟨succ, s, rfl⟩
  | cons n rest ih =>
    intro succ s hgood hresp
    obtain ⟨b, s1, heq⟩ :=
      import_collection_ok post base_url (jsonStem n) (readFile dir n) s
        (hgood n (List.mem_cons_self _ _)) hresp
    cases b
    · obtain ⟨k, s2, heq2⟩ :=
        ih succ s1 (fun m hm => hgood m (List.mem_cons_of_mem _ hm)) hresp
      exact ⟨k, s2, by simp only [importLoop, heq]; exact heq2⟩
    · obtain ⟨k, s2, heq2⟩ :=
        ih (succ + 1) s1 (fun m hm => hgood m (List.mem_cons_of_mem _ hm)) hresp
      exact ⟨k, s2, by simp only [importLoop, heq]; exact heq2⟩

/-- The collection loop over files that all parse to a dict with an empty
`items` list: every file succeeds without a request and contributes one
"No records found" line, in loop order. -/
theorem importLoop_empty_files (post : Nat → PostResult) (base_url : String)
    (dir : Dir) (names : List String) :
    ∀ (succ : Nat) (s : ImpState),
      (∀ n ∈ names,
        readFile dir n = .ok (Json.obj [("items", Json.arr [])])) →
      importLoop post base_url dir names succ s =
        (.ok (succ + names.length),
         { s with
           output := s.output ++
             names.map (fun n => "  No records found in " ++ jsonStem n) }) := by
  induction names with
  | nil => intro succ s _; simp [importLoop]
  | cons n rest ih =>
    intro succ s hall
    have h1 := import_collection_no_records post base_url (jsonStem n)
      [("items", Json.arr [])] s (Or.inr rfl)
    simp only [importLoop, hall n (List.mem_cons_self _ _), h1]
    rw [ih (succ + 1) _ (fun m hm => hall m (List.mem_cons_of_mem _ hm))]
    have harith : succ + 1 + rest.length = succ + (n :: rest).length := by
      simp; omega
    simp [List.append_assoc, harith]

end ImportData

namespace ExportData

/-- On a good GET outcome, `export_collection` returns normally and
appends exactly the files dictated by `get200`: one write of the parsed
body for a 200 response, none otherwise. -/
theorem export_collection_good (get : String → GetResult)
    (base_url collection_name output_dir : String) (s : ExpState)
    (hg : goodGet (get (urlOf base_url collection_name))) :
    ∃ b s1,
      export_collection get base_url collection_name output_dir s =
        (.ok b, s1) ∧
      s1.written = s.written ++
        ((get200 (get (urlOf base_url collection_name))).map
          (fun j =>
            (output_dir ++ "/" ++ collection_name ++ ".json", j))).toList := by
  obtain ⟨status, body, hresp, h200⟩ := hg
  by_cases hs : status = 200
  · subst hs
    obtain ⟨fields, n, hbody, hlen⟩ := h200 rfl
    subst hbody
    have hrun : export_collection get base_url collection_name output_dir s =
        (.ok true,
         { s with
           fs := fsSet s.fs (output_dir ++ "/" ++ collection_name ++ ".json")
             (.file (Json.obj fields))
           written := s.written ++
             [(output_dir ++ "/" ++ collection_name ++ ".json",
               Json.obj fields)]
           output := s.output ++
             ["✓ Exported " ++ collection_name ++ ": " ++ toString n
               ++ " records"] }) := by
      simp only [export_collection, hresp, pyDictGet, hlen]
      simp
    refine ⟨true, _, hrun, ?_⟩
    simp [get200, hresp]
  · have hrun : export_collection get base_url collection_name output_dir s =
        (.ok false,
         { s with
           output := s.output ++
             ["✗ Failed to export " ++ collection_name ++ ": "
               ++ toString status] }) := by
      simp only [export_collection, hresp, if_neg hs]
    refine ⟨false, _, hrun, ?_⟩
    cases body <;> simp [get200, hresp, hs]

/-- On good GET outcomes, the collection loop returns normally, its count
grows by at most one per collection, and the files written are exactly
those of the 200 responses, in collection order. -/
theorem exportLoop_good (get : String → GetResult)
    (base_url output_dir : String) (names : List String) :
    ∀ (succ : Nat) (s : ExpState),
      (∀ name ∈ names, goodGet (get (urlOf base_url name))) →
      ∃ k s1,
        exportLoop get base_url output_dir names succ s = (.ok k, s1) ∧
        k ≤ succ + names.length ∧
        s1.written = s.written ++ names.filterMap (fun name =>
          (get200 (get (urlOf base_url name))).map
            (fun j => (output_dir ++ "/" ++ name ++ ".json", j))) := by
  induction names with
  | nil => intro succ s _; exact ⟨succ, s, rfl, by simp, by simp⟩
  | cons name rest ih =>
    intro succ s hgood
    obtain ⟨b, s1, heq, hw⟩ :=
      export_collection_good get base_url name output_dir s
        (hgood name (List.mem_cons_self _ _))
    have hstep : ∀ s2 : ExpState,
        s2.written = s1.written ++ rest.filterMap (fun name =>
          (get200 (get (urlOf base_url name))).map
            (fun j => (output_dir ++ "/" ++ name ++ ".json", j))) →
        s2.written = s.written ++ (name :: rest).filterMap (fun name =>
          (get200 (get (urlOf base_url name))).map
            (fun j => (output_dir ++ "/" ++ name ++ ".json", j))) := by
      intro s2 h2
      rw [h2, hw]
      cases hg : get200 (get (urlOf base_url name)) <;>
        simp [List.filterMap_cons, hg, List.append_assoc]
    cases b
    · obtain ⟨k, s2, heq2, hk, hw2⟩ :=
        ih succ s1 (fun m hm => hgood m (List.mem_cons_of_mem _ hm))
      refine ⟨k, s2, by simp only [exportLoop, heq]; exact heq2, ?_,
        hstep s2 hw2⟩
      simp only [List.length_cons]; omega
    · obtain ⟨k, s2, heq2, hk, hw2⟩ :=
        ih (succ + 1) s1 (fun m hm => hgood m (List.mem_cons_of_mem _ hm))
      refine ⟨k, s2, by simp only [exportLoop, heq]; exact heq2, ?_,
        hstep s2 hw2⟩
      simp only [List.length_cons]; omega

/-- A full exporter run with at least one argument, a usable output path
and good GET outcomes: exit code 0, a reported count of at most
`collections.length`, and one file written per 200 collection. -/
theorem export_main_good (get : String → GetResult) (argv : List String)
    (s : ExpState) (h2 : 2 ≤ argv.length) (hgood : ∀ url, goodGet (get url))
    (hdir : s.fs.lookup (outDirOf argv) = some FsEntry.dir ∨
      s.fs.lookup (outDirOf argv) = none) :
    ∃ k s1, main get argv s = (.code 0, s1) ∧ k ≤ collections.length ∧
      ("Export complete: " ++ toString k ++ "/"
        ++ toString collections.length ++ " collections exported")
        ∈ s1.output ∧
      s1.written = s.written ++ collections.filterMap (fun name =>
        (get200 (get (urlOf (baseOf argv) name))).map
          (fun j => (outDirOf argv ++ "/" ++ name ++ ".json", j))) := by
  have hmk : ∃ fs1, mkdirExistOk s.fs (outDirOf argv) = .ok fs1 := by
    rcases hdir with h | h <;> simp [mkdirExistOk, h]
  obtain ⟨fs1, hmk⟩ := hmk
  obtain ⟨k, s3, heq, hk, hw⟩ :=
    exportLoop_good get (baseOf argv) (outDirOf argv) collections 0
      ⟨fs1, s.written,
       s.output ++
         ["Exporting from " ++ baseOf argv ++ " to " ++ outDirOf argv ++ "/",
          dashes]⟩
      (fun name _ => hgood _)
  have hrun : main get argv s =
      (.code 0,
       { s3 with
         output := s3.output ++
           [dashes,
            "Export complete: " ++ toString k ++ "/"
              ++ toString collections.length ++ " collections exported",
            "Output saved to: " ++ outDirOf argv ++ "/"] }) := by
    simp only [main, if_neg (by omega : ¬argv.length < 2), hmk, heq]
  refine ⟨k, _, hrun, by simpa using hk, ?_, ?_⟩
  · refine List.mem_append.mpr (Or.inr ?_)
    simp
  · have : ({ s3 with
        output := s3.output ++
          [dashes,
           "Export complete: " ++ toString k ++ "/"
             ++ toString collections.length ++ " collections exported",
           "Output saved to: " ++ outDirOf argv ++ "/"] } :
        ExpState).written = s3.written := rfl
    rw [this, hw]

end ExportData

namespace ImportData

theorem lexLe_total : ∀ (x y : List Char), lexLe x y = true ∨ lexLe y x = true
  | [], _ => Or.inl rfl
  | _ :: _, [] => Or.inr rfl
  | a :: as, b :: bs => by
    by_cases hab : a = b
    · subst hab
      simpa only [lexLe, if_pos rfl] using lexLe_total as bs
    · rcases lt_or_gt_of_ne hab with h | h
      · left; simp [lexLe, hab, h]
      · right; simp [lexLe, Ne.symm hab, h]

theorem lexLe_trans :
    ∀ (x y z : List Char),
      lexLe x y = true → lexLe y z = true → lexLe x z = true
  | [], _, _, _, _ => rfl
  | _ :: _, [], _, h, _ => by simp [lexLe] at h
  | _ :: _, _ :: _, [], _, h => by simp [lexLe] at h
  | a :: as, b :: bs, c :: cs, h1, h2 => by
    simp only [lexLe] at h1 h2 ⊢
    by_cases hab : a = b
    · subst hab
      rw [if_pos rfl] at h1
      by_cases hbc : a = c
      · subst hbc
        rw [if_pos rfl] at h2 ⊢
        exact lexLe_trans as bs cs h1 h2
      · rw [if_neg hbc] at h2 ⊢
        exact h2
    · rw [if_neg hab] at h1
      by_cases hbc : b = c
      · subst hbc
        rw [if_neg hab]
        exact h1
      · rw [if_neg hbc] at h2
        have hac : a < c :=
          lt_trans (of_decide_eq_true h1) (of_decide_eq_true h2)
        rw [if_neg (ne_of_lt hac)]
        exact decide_eq_true hac

/-- If `y` is lexicographically strictly below `x`, then `x` is not
`lexLe`-below `y`. -/
theorem lexLe_false_of_lex_lt :
    ∀ {y x : List Char}, List.Lex (· < ·) y x → lexLe x y = false := by
  intro y x h
  induction h with
  | nil => rfl
  | @cons a l1 l2 _ ih =>
    simpa only [lexLe, if_pos rfl] using ih
  | @rel a l1 b l2 hr =>
    have hba : ¬b = a := fun e => absurd (e ▸ hr) (lt_irrefl _)
    simp [lexLe, hba, not_lt_of_lt hr]

/-- The executable comparison agrees with the mathematical lexicographic
order on strings. -/
theorem strLe_le {a b : String} (h : strLe a b = true) : a ≤ b := by
  refine le_of_not_lt (fun hlt => ?_)
  rw [String.lt_iff_toList_lt] at hlt
  have hlt2 : List.Lex (· < ·) b.toList a.toList := hlt
  rw [strLe, lexLe_false_of_lex_lt hlt2] at h
  cases h

/-- `sorted(...)` really sorts: its output is pairwise `strLe`-ordered. -/
theorem sortStrings_sorted (l : List String) :
    (sortStrings l).Pairwise (fun a b => strLe a b = true) := by
  haveI : IsTotal String (fun a b => strLe a b = true) :=
    ⟨fun a b => lexLe_total a.toList b.toList⟩
  haveI : IsTrans String (fun a b => strLe a b = true) :=
    ⟨fun a b c => lexLe_trans a.toList b.toList c.toList⟩
  exact List.sorted_insertionSort _ l

/-- `sorted(...)` returns a permutation of its input. -/
theorem sortStrings_perm (l : List String) : (sortStrings l).Perm l :=
  List.perm_insertionSort _ l

end ImportData

theorem lookup_isSome_of_mem_fst {β : Type} {l : List (String × β)}
    {n : String} (h : n ∈ l.map Prod.fst) : ∃ c, l.lookup n = some c := by
  induction l with
  | nil => simp at h
  | cons p rest ih =>
    obtain ⟨k, v⟩ := p
    by_cases hk : n = k
    · exact ⟨v, by simp [List.lookup, hk]⟩
    · simp only [List.map_cons, List.mem_cons] at h
      rcases h with h | h
      · exact absurd h hk
      · obtain ⟨c, hc⟩ := ih h
        refine ⟨c, ?_⟩
        simpa [List.lookup, beq_eq_false_iff_ne.mpr hk] using hc

theorem mem_of_lookup_eq_some {β : Type} {l : List (String × β)} {n : String}
    {c : β} (h : l.lookup n = some c) : (n, c) ∈ l := by
  induction l with
  | nil => simp [List.lookup] at h
  | cons p rest ih =>
    obtain ⟨k, v⟩ := p
    by_cases hk : n = k
    · subst hk
      simp only [List.lookup, beq_self_eq_true] at h
      cases h
      exact List.mem_cons_self _ _
    · simp only [List.lookup, beq_eq_false_iff_ne.mpr hk] at h
      exact List.mem_cons_of_mem _ (ih h)

namespace ImportData

/-- A full importer run with both arguments, an existing directory with at
least one `*.json` file, good files and answered POSTs returns exit code
0. -/
theorem import_main_good (post : Nat → PostResult) (dir : Dir)
    (argv : List String) (s : ImpState) (h3 : 3 ≤ argv.length)
    (hpres : dir.present = true)
    (hne : (dir.listing.map Prod.fst).filter isJsonName ≠ [])
    (hfiles : ∀ p ∈ dir.listing, goodFile p.2)
    (hresp : ∀ n, post n ≠ .raised) :
    ∃ s1, main post dir argv s = (.code 0, s1) := by
  have hglob : ((dir.listing.map Prod.fst).filter isJsonName).isEmpty = false := by
    cases h : (dir.listing.map Prod.fst).filter isJsonName with
    | nil => exact absurd h hne
    | cons a l => rfl
  have hgoodnames :
      ∀ n ∈ sortStrings ((dir.listing.map Prod.fst).filter isJsonName),
        goodFile (readFile dir n) := by
    intro n hn
    have hn2 : n ∈ (dir.listing.map Prod.fst).filter isJsonName :=
      ((sortStrings_perm _).mem_iff).mp hn
    have hn3 : n ∈ dir.listing.map Prod.fst := (List.mem_filter.mp hn2).1
    obtain ⟨c, hc⟩ := lookup_isSome_of_mem_fst hn3
    have hg := hfiles (n, c) (mem_of_lookup_eq_some hc)
    simpa [readFile, hc] using hg
  obtain ⟨k, s2, heq⟩ :=
    importLoop_ok post (baseOf argv) dir
      (sortStrings ((dir.listing.map Prod.fst).filter isJsonName)) 0
      ⟨s.requests,
       s.output ++
         ["Importing to " ++ baseOf argv ++ " from " ++ (argv[2]?).getD ""
           ++ "/", dashes]⟩
      hgoodnames hresp
  refine ⟨{ s2 with
    output := s2.output ++
      [dashes,
       "Import complete: " ++ toString k ++ "/"
         ++ toString ((dir.listing.map Prod.fst).filter isJsonName).length
         ++ " collections imported"] }, ?_⟩
  simp [main, if_neg (by omega : ¬argv.length < 3), hpres, hglob, heq]

end ImportData

/-! Claim theorems. -/

/-- C9: a directory containing `a.json` (valid, zero records), `b.json`
(invalid JSON) and `c.json` (valid) makes the importer raise an uncaught
parse exception when it reaches `b.json`: the run terminates with
`json.load`'s exception, `c.json` (later in sorted order) is never
processed, no request is issued and no final summary line is printed —
the complete output is the header, the separator, and the `a.json` line. -/
theorem c9_invalid_json_aborts_run :
    ImportData.main (fun _ => PostResult.resp 200 "")
        ⟨true, [("a.json", Except.ok (Json.obj [("items", Json.arr [])])),
                ("b.json", Except.error ()),
                ("c.json", Except.ok (Json.obj [("items", Json.arr [])]))]⟩
        ["import_data.py", "http://x", "d"] ⟨[], []⟩ =
      (Outcome.raised PyErr.jsonDecodeError,
       ⟨[], ["Importing to http://x from d/", dashes,
             "  No records found in a"]⟩) ∧
    "  No records found in c" ∉
      ["Importing to http://x from d/", dashes, "  No records found in a"] ∧
    (∀ l ∈ ["Importing to http://x from d/", dashes,
            "  No records found in a"],
      l ≠ "Import complete: 1/3 collections imported") :=
  ⟨rfl, by decide, by decide⟩

/-- C10: a valid-JSON collection file whose `items` list contains a
non-dict element (here the string "oops") makes the importer raise an
uncaught `AttributeError` at `record.pop`, aborting the entire run: no
request is issued, no per-record failure line is printed (so the element
is not counted as a per-record failure), and the output stops at the
header lines. -/
theorem c10_non_object_record_aborts_run :
    ImportData.main (fun _ => PostResult.resp 200 "")
        ⟨true, [("a.json",
          Except.ok (Json.obj [("items", Json.arr [Json.str "oops"])]))]⟩
        ["import_data.py", "http://x", "d"] ⟨[], []⟩ =
      (Outcome.raised PyErr.attributeError,
       ⟨[], ["Importing to http://x from d/", dashes]⟩) ∧
    (∀ l ∈ ["Importing to http://x from d/", dashes],
      l ≠ "  ✗ Failed to import record: 200 - ") :=
  ⟨rfl, by decide⟩

/-- C1, counterexample to the claim as stated: with the HTTP client
raising on the first request (a connection error — there is no
`try`/`except` in `export_data.py`), the exporter run terminates with an
uncaught exception instead of converting the error into a failure count,
so "errors on an individual collection are caught" and "the exporter
never raises" are false. -/
theorem c1_raising_get_aborts_run :
    (ExportData.main (fun _ => GetResult.raised)
        ["export_data.py", "http://x"] ⟨[], [], []⟩).1 =
      Outcome.raised PyErr.requestError := rfl

/-- C6, counterexample to the claim as stated: an importer invocation
with both arguments, an existing directory and one `*.json` file whose
content is not valid JSON does not exit with code 0 (nor a clean code 1):
it terminates with an uncaught `json.JSONDecodeError`. -/
theorem c6_unparsable_file_not_exit_zero :
    (ImportData.main (fun _ => PostResult.resp 200 "")
        ⟨true, [("a.json", Except.error ())]⟩
        ["import_data.py", "http://x", "d"] ⟨[], []⟩).1 =
      Outcome.raised PyErr.jsonDecodeError ∧
    (ImportData.main (fun _ => PostResult.resp 200 "")
        ⟨true, [("a.json", Except.error ())]⟩
        ["import_data.py", "http://x", "d"] ⟨[], []⟩).1 ≠
      Outcome.code 0 :=
  ⟨rfl, by decide⟩

/-- C8, counterexample to the claim as stated: when a non-directory file
occupies the output path, `Path(output_dir).mkdir(exist_ok=True)` raises
`FileExistsError` even though "a path with that name already exists", so
the run aborts before any collection is exported. -/
theorem c8_existing_file_path_raises :
    (ExportData.main (fun _ => GetResult.raised)
        ["export_data.py", "http://x"]
        ⟨[("pocketbase_export", FsEntry.file Json.null)], [], []⟩).1 =
      Outcome.raised PyErr.fileExistsError := rfl

/-- C3, counterexample to the claim as stated: a collection file with an
empty `items` list is indeed a success without any network request, but
it is reported with the "No records found" line, not as "fully imported
(0/0)" — no `✓ Imported 0/0` line is ever printed for it. -/
theorem c3_no_zero_over_zero_report :
    ImportData.import_collection (fun _ => PostResult.resp 200 "")
        "http://x" "c" (.ok (Json.obj [("items", Json.arr [])])) ⟨[], []⟩ =
      (.ok true, ⟨[], ["  No records found in c"]⟩) ∧
    "  ✓ Imported 0/0 records to c" ∉ ["  No records found in c"] :=
  ⟨rfl, by decide⟩

namespace ImportData

/-- Every request present after the record loop was either already there
or is the stripped form of one of the loop's dict records, posted to the
collection URL. -/
theorem importRecords_requests (post : Nat → PostResult) (url : String)
    (records : List Json) :
    ∀ (succ : Nat) (s : ImpState) (q : String × Json),
      (∀ r ∈ records, ∃ f, r = Json.obj f) →
      q ∈ (importRecords post url records succ s).2.requests →
      q ∈ s.requests ∨
        ∃ fields, Json.obj fields ∈ records ∧
          q = (url, Json.obj (stripFields fields)) := by
  induction records with
  | nil =>
    intro succ s q _ hq
    exact Or.inl (by simpa [importRecords] using hq)
  | cons record rest ih =>
    intro succ s q hobj hq
    obtain ⟨f, rfl⟩ := hobj record (List.mem_cons_self _ _)
    cases hp : post s.requests.length with
    | raised =>
      simp only [importRecords, hp] at hq
      exact Or.inl hq
    | resp st txt =>
      by_cases hok : st = 200 ∨ st = 201
      · simp only [importRecords, hp, if_pos hok] at hq
        rcases ih (succ + 1)
            ⟨s.requests ++ [(url, Json.obj (stripFields f))], s.output⟩ q
            (fun r hr => hobj r (List.mem_cons_of_mem _ hr)) hq with
          h | ⟨g, hg, hq2⟩
        · rcases List.mem_append.mp h with h1 | h1
          · exact Or.inl h1
          · exact Or.inr ⟨f, List.mem_cons_self _ _, List.mem_singleton.mp h1⟩
        · exact Or.inr ⟨g, List.mem_cons_of_mem _ hg, hq2⟩
      · simp only [importRecords, hp, if_neg hok] at hq
        rcases ih succ
            ⟨s.requests ++ [(url, Json.obj (stripFields f))],
             s.output ++
               ["  ✗ Failed to import record: " ++ toString st ++ " - "
                 ++ txt]⟩ q
            (fun r hr => hobj r (List.mem_cons_of_mem _ hr)) hq with
          h | ⟨g, hg, hq2⟩
        · rcases List.mem_append.mp h with h1 | h1
          · exact Or.inl h1
          · exact Or.inr ⟨f, List.mem_cons_self _ _, List.mem_singleton.mp h1⟩
        · exact Or.inr ⟨g, List.mem_cons_of_mem _ hg, hq2⟩

end ImportData

/-- C2: for every dict record of a collection file's items list, the
importer strips exactly the keys `id`, `created` and `updated` — an
operation that succeeds whether or not those keys were present — before
posting, so every request body issued by `import_collection` is the
stripped form of one of the records: it retains precisely the record's
other fields and contains none of the three system keys. -/
theorem c2_strip_system_fields (post : Nat → PostResult)
    (base_url collection_name : String) (records : List Json) (s : ImportData.ImpState)
    (hobj : ∀ r ∈ records, ∃ fields, r = Json.obj fields) :
    (∀ q ∈ (ImportData.import_collection post base_url collection_name
        (.ok (Json.obj [("items", Json.arr records)])) s).2.requests,
      q ∈ s.requests ∨
        ∃ fields, Json.obj fields ∈ records ∧
          q = (urlOf base_url collection_name,
               Json.obj (ImportData.stripFields fields))) ∧
    (∀ (fields : List (String × Json)) (q : String × Json),
      q ∈ ImportData.stripFields fields ↔
        q ∈ fields ∧ q.1 ≠ "id" ∧ q.1 ≠ "created" ∧ q.1 ≠ "updated") := by
  refine ⟨?_, fun fields q => ImportData.mem_stripFields fields q⟩
  intro q hq
  cases records with
  | nil =>
    rw [ImportData.import_collection_no_records post base_url collection_name
      [("items", Json.arr [])] s (Or.inr rfl)] at hq
    exact Or.inl hq
  | cons r rest =>
    rcases hres : ImportData.importRecords post (urlOf base_url collection_name)
        (r :: rest) 0 s with ⟨res, s1⟩
    have hreq : (ImportData.import_collection post base_url collection_name
        (.ok (Json.obj [("items", Json.arr (r :: rest))])) s).2.requests =
        s1.requests := by
      simp only [ImportData.import_collection, pyDictGet, List.lookup,
        beq_self_eq_true, Option.getD_some]
      rw [if_neg (by simp [Json.truthy])]
      rw [hres]
      cases res <;> rfl
    rw [hreq] at hq
    exact ImportData.importRecords_requests post (urlOf base_url collection_name)
      (r :: rest) 0 s q hobj (by rw [hres]; exact hq)

/-- C2 witness: a concrete record with an `id` and a `name` field is
posted as its stripped form. -/
theorem c2_strip_system_fields_witness :
    (∀ q ∈ (ImportData.import_collection (fun _ => PostResult.resp 200 "")
        "http://x" "users"
        (.ok (Json.obj [("items", Json.arr
          [Json.obj [("id", Json.str "r1"), ("name", Json.str "x")]])]))
        ⟨[], []⟩).2.requests,
      q ∈ (⟨[], []⟩ : ImportData.ImpState).requests ∨
        ∃ fields,
          Json.obj fields ∈
            [Json.obj [("id", Json.str "r1"), ("name", Json.str "x")]] ∧
          q = (urlOf "http://x" "users",
               Json.obj (ImportData.stripFields fields))) ∧
    (∀ (fields : List (String × Json)) (q : String × Json),
      q ∈ ImportData.stripFields fields ↔
        q ∈ fields ∧ q.1 ≠ "id" ∧ q.1 ≠ "created" ∧ q.1 ≠ "updated") :=
  c2_strip_system_fields _ _ _ _ _
    (by intro r hr; rw [List.mem_singleton] at hr; exact ⟨_, hr⟩)

/-- C3 (amended): for every collection file parsing to a dict whose
`items` is absent or the empty list, the importer issues no network
request (the returned state differs from the input state only in its
output lines), counts the collection as a success (`True`), and reports
it with the "No records found" line — not with an `Imported 0/0` report. -/
theorem c3_empty_items_success (post : Nat → PostResult)
    (base_url collection_name : String) (fields : List (String × Json))
    (s : ImportData.ImpState)
    (h : fields.lookup "items" = none ∨
      fields.lookup "items" = some (Json.arr [])) :
    ImportData.import_collection post base_url collection_name
        (.ok (Json.obj fields)) s =
      (.ok true,
       { s with
         output := s.output ++
           ["  No records found in " ++ collection_name] }) ∧
    (ImportData.import_collection post base_url collection_name
        (.ok (Json.obj fields)) s).2.requests = s.requests :=
  have h1 := ImportData.import_collection_no_records post base_url
    collection_name fields s h
  ⟨h1, by rw [h1]⟩

/-- C3 witness: a concrete empty-items file. -/
theorem c3_empty_items_success_witness :
    ImportData.import_collection (fun _ => PostResult.resp 200 "")
        "http://x" "c" (.ok (Json.obj [("items", Json.arr [])])) ⟨[], []⟩ =
      (.ok true, ⟨[], ["  No records found in c"]⟩) ∧
    (ImportData.import_collection (fun _ => PostResult.resp 200 "")
        "http://x" "c" (.ok (Json.obj [("items", Json.arr [])]))
        ⟨[], []⟩).2.requests = ([] : List (String × Json)) :=
  c3_empty_items_success _ _ _ _ _ (Or.inr rfl)

/-- C4: for a collection file with a non-empty `items` list of dict
records, with every POST answered by a response, `import_collection`
returns `success_count == len(records)` — `True` exactly when every one
of the collection's records received a 200 or 201 response.  Records with
any other status are logged with status and body and counted as failures,
but processing continues: one request is issued for every record. -/
theorem c4_collection_success_iff_all_records (post : Nat → PostResult)
    (base_url collection_name : String) (records : List Json)
    (s : ImportData.ImpState)
    (hobj : ∀ r ∈ records, ∃ fields, r = Json.obj fields)
    (hne : records ≠ [])
    (hresp : ∀ n, post n ≠ .raised) :
    ∃ (k : Nat) (s1 : ImportData.ImpState),
      ImportData.import_collection post base_url collection_name
          (.ok (Json.obj [("items", Json.arr records)])) s =
        (.ok (k == records.length),
         { s1 with
           output := s1.output ++
             ["  ✓ Imported " ++ toString k ++ "/" ++ toString records.length
               ++ " records to " ++ collection_name] }) ∧
      k ≤ records.length ∧
      s1.requests.length = s.requests.length + records.length ∧
      ((k == records.length) = true ↔
        ∀ i < records.length, postOk (post (s.requests.length + i)) = true) ∧
      (∀ i st txt, i < records.length →
        post (s.requests.length + i) = .resp st txt →
        postOk (.resp st txt) = false →
        ("  ✗ Failed to import record: " ++ toString st ++ " - " ++ txt)
          ∈ s1.output) := by
  obtain ⟨k, s1, heq, hk, hlen, hiff, _, hfail⟩ :=
    ImportData.importRecords_spec post (urlOf base_url collection_name)
      records 0 s hobj hresp
  rw [Nat.zero_add] at heq
  refine ⟨k, s1, ?_, hk, hlen, ?_, hfail⟩
  · have hcons : ∃ r rest, records = r :: rest := by
      cases records with
      | nil => exact absurd rfl hne
      | cons r rest => exact ⟨r, rest, rfl⟩
    obtain ⟨r, rest, rfl⟩ := hcons
    simp only [ImportData.import_collection, pyDictGet, List.lookup,
      beq_self_eq_true, Option.getD_some]
    rw [if_neg (by simp [Json.truthy])]
    rw [heq]
  · rw [beq_iff_eq]
    exact hiff

/-- C4 witness: a single dict record accepted with status 200. -/
theorem c4_collection_success_iff_all_records_witness :
    ∃ (k : Nat) (s1 : ImportData.ImpState),
      ImportData.import_collection (fun _ => PostResult.resp 200 "ok")
          "http://x" "users"
          (.ok (Json.obj [("items", Json.arr [Json.obj []])])) ⟨[], []⟩ =
        (.ok (k == [Json.obj []].length),
         { s1 with
           output := s1.output ++
             ["  ✓ Imported " ++ toString k ++ "/"
               ++ toString [Json.obj []].length
               ++ " records to " ++ "users"] }) ∧
      k ≤ [Json.obj []].length ∧
      s1.requests.length =
        (⟨[], []⟩ : ImportData.ImpState).requests.length +
          [Json.obj []].length ∧
      ((k == [Json.obj []].length) = true ↔
        ∀ i < [Json.obj []].length,
          postOk ((fun _ => PostResult.resp 200 "ok")
            ((⟨[], []⟩ : ImportData.ImpState).requests.length + i)) = true) ∧
      (∀ i st txt, i < [Json.obj []].length →
        (fun _ => PostResult.resp 200 "ok")
            ((⟨[], []⟩ : ImportData.ImpState).requests.length + i) =
          .resp st txt →
        postOk (.resp st txt) = false →
        ("  ✗ Failed to import record: " ++ toString st ++ " - " ++ txt)
          ∈ s1.output) :=
  c4_collection_success_iff_all_records _ _ _ _ _
    (by intro r hr; rw [List.mem_singleton] at hr; exact ⟨_, hr⟩)
    (List.cons_ne_nil _ _) (fun n h => PostResult.noConfusion h)

/-- C5: for every collection whose export request returns status 200 with
a JSON dict body, the exporter writes the parsed body unmodified to
`{output_dir}/{name}.json` (in this value-level model the stored value
equals the response body, so the file parses back to the same JSON
value; indentation is a serialization detail below the model), and the
count printed in the success line equals the length of the body's `items`
list, or 0 when `items` is absent. -/
theorem c5_export_writes_body_and_count (get : String → GetResult)
    (base_url collection_name output_dir : String) (s : ExpState)
    (fields : List (String × Json))
    (hresp : get (urlOf base_url collection_name) =
      .resp 200 (.ok (Json.obj fields)))
    (hitems : fields.lookup "items" = none ∨
      ∃ xs, fields.lookup "items" = some (Json.arr xs)) :
    ∃ k : Nat,
      ExportData.export_collection get base_url collection_name output_dir s =
        (.ok true,
         { s with
           fs := fsSet s.fs
             (output_dir ++ "/" ++ collection_name ++ ".json")
             (.file (Json.obj fields))
           written := s.written ++
             [(output_dir ++ "/" ++ collection_name ++ ".json",
               Json.obj fields)]
           output := s.output ++
             ["✓ Exported " ++ collection_name ++ ": " ++ toString k
               ++ " records"] }) ∧
      ((fields.lookup "items" = none ∧ k = 0) ∨
        ∃ xs, fields.lookup "items" = some (Json.arr xs) ∧ k = xs.length) := by
  rcases hitems with h | ⟨xs, h⟩
  · refine ⟨0, ?_, Or.inl ⟨h, rfl⟩⟩
    have hlen : pyLen ((fields.lookup "items").getD (Json.arr [])) =
        .ok 0 := by rw [h]; rfl
    simp only [ExportData.export_collection, hresp, pyDictGet, hlen]
    simp
  · refine ⟨xs.length, ?_, Or.inr ⟨xs, h, rfl⟩⟩
    have hlen : pyLen ((fields.lookup "items").getD (Json.arr [])) =
        .ok xs.length := by rw [h]; rfl
    simp only [ExportData.export_collection, hresp, pyDictGet, hlen]
    simp

/-- C5 witness: a 200 body with one record in `items` is written as-is
and reported with count 1. -/
theorem c5_export_writes_body_and_count_witness :
    ∃ k : Nat,
      ExportData.export_collection
          (fun _ => GetResult.resp 200 (.ok (Json.obj
            [("items", Json.arr [Json.obj [("name", Json.str "x")]])])))
          "http://x" "users" "out" ⟨[("out", FsEntry.dir)], [], []⟩ =
        (.ok true,
         { (⟨[("out", FsEntry.dir)], [], []⟩ : ExpState) with
           fs := fsSet [("out", FsEntry.dir)]
             ("out" ++ "/" ++ "users" ++ ".json")
             (.file (Json.obj
               [("items", Json.arr [Json.obj [("name", Json.str "x")]])]))
           written := [] ++
             [("out" ++ "/" ++ "users" ++ ".json",
               Json.obj
                 [("items", Json.arr [Json.obj [("name", Json.str "x")]])])]
           output := [] ++
             ["✓ Exported " ++ "users" ++ ": " ++ toString k
               ++ " records"] }) ∧
      (([("items", Json.arr [Json.obj [("name", Json.str "x")]])].lookup
          "items" = none ∧ k = 0) ∨
        ∃ xs,
          [("items", Json.arr [Json.obj [("name", Json.str "x")]])].lookup
            "items" = some (Json.arr xs) ∧ k = xs.length) :=
  c5_export_writes_body_and_count _ _ _ _ _ _ rfl
    (Or.inr ⟨[Json.obj [("name", Json.str "x")]], rfl⟩)

/-- C1 (amended): non-200 responses on an individual collection are
converted into a failure count rather than terminating the run, but only
exceptions are not caught; provided every collection request returns an
HTTP response and every 200 body parses to a JSON dict (with a
measurable `items` value), the exporter does not raise, the loop over the
fixed five-collection list completes with exit code 0, and the reported
success count never exceeds 5. -/
theorem c1_export_run_completes (get : String → GetResult)
    (argv : List String) (s : ExpState) (h2 : 2 ≤ argv.length)
    (hgood : ∀ url, goodGet (get url))
    (hdir : s.fs.lookup (ExportData.outDirOf argv) = some FsEntry.dir ∨
      s.fs.lookup (ExportData.outDirOf argv) = none) :
    ∃ (n : Nat) (s1 : ExpState),
      ExportData.main get argv s = (Outcome.code 0, s1) ∧
      n ≤ ExportData.collections.length ∧
      ("Export complete: " ++ toString n ++ "/"
        ++ toString ExportData.collections.length
        ++ " collections exported") ∈ s1.output := by
  obtain ⟨k, s1, hrun, hk, hmem, _⟩ :=
    ExportData.export_main_good get argv s h2 hgood hdir
  exact ⟨k, s1, hrun, hk, hmem⟩

/-- C1 witness: a run against a server answering 404 everywhere completes
with code 0 and a reported count within bounds. -/
theorem c1_export_run_completes_witness :
    ∃ (n : Nat) (s1 : ExpState),
      ExportData.main (fun _ => GetResult.resp 404 (.error ()))
          ["export_data.py", "http://x"] ⟨[], [], []⟩ =
        (Outcome.code 0, s1) ∧
      n ≤ ExportData.collections.length ∧
      ("Export complete: " ++ toString n ++ "/"
        ++ toString ExportData.collections.length
        ++ " collections exported") ∈ s1.output :=
  c1_export_run_completes _ _ _ (by decide)
    (fun url => ⟨404, .error (), rfl, fun h => absurd h (by decide)⟩)
    (Or.inr rfl)

/-- C8 (amended): `mkdir(exist_ok=True)` creates the output directory
when the path is absent and raises no error when a directory with that
name already exists (an existing non-directory file at that path does
raise); given that and good GET outcomes, the run exits 0 and writes
exactly one file, named `{output_dir}/{name}.json` and holding the parsed
body, per successfully exported collection. -/
theorem c8_mkdir_and_one_file_per_success :
    (∀ (fs : List (String × FsEntry)) (path : String),
      fs.lookup path = none →
        mkdirExistOk fs path = .ok (fsSet fs path FsEntry.dir)) ∧
    (∀ (fs : List (String × FsEntry)) (path : String),
      fs.lookup path = some FsEntry.dir → mkdirExistOk fs path = .ok fs) ∧
    (∀ (get : String → GetResult) (argv : List String) (s : ExpState),
      2 ≤ argv.length → (∀ url, goodGet (get url)) →
      (s.fs.lookup (ExportData.outDirOf argv) = some FsEntry.dir ∨
        s.fs.lookup (ExportData.outDirOf argv) = none) →
      ∃ s1 : ExpState, ExportData.main get argv s = (Outcome.code 0, s1) ∧
        s1.written = s.written ++
          ExportData.collections.filterMap (fun name =>
            (get200 (get (urlOf (baseOf argv) name))).map
              (fun j =>
                (ExportData.outDirOf argv ++ "/" ++ name ++ ".json", j)))) := by
  refine ⟨?_, ?_, ?_⟩
  · intro fs path h
    simp [mkdirExistOk, h]
  · intro fs path h
    simp [mkdirExistOk, h]
  · intro get argv s h2 hgood hdir
    obtain ⟨k, s1, hrun, _, _, hw⟩ :=
      ExportData.export_main_good get argv s h2 hgood hdir
    exact ⟨s1, hrun, hw⟩

/-- C8 witness: against a server returning 200 with a dict body for the
users collection and 404 otherwise, starting from an empty filesystem,
the run exits 0 and writes exactly the users file. -/
theorem c8_mkdir_and_one_file_per_success_witness :
    ∃ s1 : ExpState,
      ExportData.main
          (fun url => if url = urlOf "http://x" "users"
            then GetResult.resp 200 (.ok (Json.obj [("items", Json.arr [])]))
            else GetResult.resp 404 (.error ()))
          ["export_data.py", "http://x"] ⟨[], [], []⟩ =
        (Outcome.code 0, s1) ∧
      s1.written = [] ++
        ExportData.collections.filterMap (fun name =>
          (get200 ((fun url => if url = urlOf "http://x" "users"
            then GetResult.resp 200 (.ok (Json.obj [("items", Json.arr [])]))
            else GetResult.resp 404 (.error ())) (urlOf (baseOf
              ["export_data.py", "http://x"]) name))).map
            (fun j =>
              (ExportData.outDirOf ["export_data.py", "http://x"] ++ "/"
                ++ name ++ ".json", j))) :=
  c8_mkdir_and_one_file_per_success.2.2 _ _ _ (by decide)
    (fun url => by
      by_cases h : url = urlOf "http://x" "users"
      · exact ⟨200, .ok (Json.obj [("items", Json.arr [])]),
          by rw [if_pos h], fun _ =>
            ⟨[("items", Json.arr [])], 0, rfl, rfl⟩⟩
      · exact ⟨404, .error (), by rw [if_neg h],
          fun hc => absurd hc (by decide)⟩)
    (Or.inr rfl)

/-- C6 (amended): the exporter exits 1 when given no base_url argument;
the importer exits 1 — before issuing any request — when given fewer than
two arguments, when the import directory does not exist, or when it holds
no `*.json` file; and both exit 0 in every other invocation in which no
uncaught exception occurs (responses arrive, files parse to dicts with
list-of-dict or falsy `items`, the output path is usable), regardless of
per-collection or per-record HTTP failures.  A run that raises terminates
with a traceback, not with exit status 0. -/
theorem c6_exit_codes :
    (∀ (get : String → GetResult) (s : ExpState) (argv : List String),
      argv.length < 2 →
      (ExportData.main get argv s).1 = Outcome.code 1) ∧
    (∀ (get : String → GetResult) (s : ExpState) (argv : List String),
      2 ≤ argv.length → (∀ url, goodGet (get url)) →
      (s.fs.lookup (ExportData.outDirOf argv) = some FsEntry.dir ∨
        s.fs.lookup (ExportData.outDirOf argv) = none) →
      (ExportData.main get argv s).1 = Outcome.code 0) ∧
    (∀ (post : Nat → PostResult) (dir : ImportData.Dir)
       (s : ImportData.ImpState) (argv : List String),
      argv.length < 3 →
      (ImportData.main post dir argv s).1 = Outcome.code 1 ∧
      (ImportData.main post dir argv s).2.requests = s.requests) ∧
    (∀ (post : Nat → PostResult) (dir : ImportData.Dir)
       (s : ImportData.ImpState) (argv : List String),
      3 ≤ argv.length → dir.present = false →
      (ImportData.main post dir argv s).1 = Outcome.code 1 ∧
      (ImportData.main post dir argv s).2.requests = s.requests) ∧
    (∀ (post : Nat → PostResult) (dir : ImportData.Dir)
       (s : ImportData.ImpState) (argv : List String),
      3 ≤ argv.length → dir.present = true →
      (dir.listing.map Prod.fst).filter ImportData.isJsonName = [] →
      (ImportData.main post dir argv s).1 = Outcome.code 1 ∧
      (ImportData.main post dir argv s).2.requests = s.requests) ∧
    (∀ (post : Nat → PostResult) (dir : ImportData.Dir)
       (s : ImportData.ImpState) (argv : List String),
      3 ≤ argv.length → dir.present = true →
      (dir.listing.map Prod.fst).filter ImportData.isJsonName ≠ [] →
      (∀ p ∈ dir.listing, goodFile p.2) → (∀ n, post n ≠ .raised) →
      (ImportData.main post dir argv s).1 = Outcome.code 0) := by
  refine ⟨?_, ?_, ?_, ?_, ?_, ?_⟩
  · intro get s argv h
    simp [ExportData.main, if_pos h]
  · intro get s argv h2 hgood hdir
    obtain ⟨k, s1, hrun, _⟩ :=
      ExportData.export_main_good get argv s h2 hgood hdir
    rw [hrun]
  · intro post dir s argv h
    constructor <;> simp [ImportData.main, if_pos h]
  · intro post dir s argv h3 hpres
    constructor <;>
      simp [ImportData.main, if_neg (by omega : ¬argv.length < 3), hpres]
  · intro post dir s argv h3 hpres hglob
    constructor <;>
      simp [ImportData.main, if_neg (by omega : ¬argv.length < 3), hpres,
        hglob]
  · intro post dir s argv h3 hpres hne hfiles hresp
    obtain ⟨s1, hrun⟩ :=
      ImportData.import_main_good post dir argv s h3 hpres hne hfiles hresp
    rw [hrun]

/-- C6 witness: a two-argument importer run over a directory with one
good file exits 0. -/
theorem c6_exit_codes_witness :
    (ImportData.main (fun _ => PostResult.resp 200 "")
        ⟨true, [("a.json", Except.ok (Json.obj [("items", Json.arr [])]))]⟩
        ["import_data.py", "http://x", "d"] ⟨[], []⟩).1 = Outcome.code 0 :=
  c6_exit_codes.2.2.2.2.2 _ _ _ _ (by decide) rfl (by decide)
    (by
      intro p hp
      rw [List.mem_singleton] at hp
      subst hp
      exact ⟨[("items", Json.arr [])], rfl, Or.inl rfl⟩)
    (fun n h => PostResult.noConfusion h)

theorem map_fst_map_pair {β : Type} (names : List String) (c : β) :
    List.map Prod.fst (names.map (fun n => (n, c))) = names := by
  induction names with
  | nil => rfl
  | cons a l ih => simp only [List.map_cons, ih]

theorem lookup_map_const {β : Type} (names : List String) (c : β) (n : String)
    (h : n ∈ names) : (names.map (fun m => (m, c))).lookup n = some c := by
  induction names with
  | nil => simp at h
  | cons m rest ih =>
    by_cases hm : n = m
    · simp [List.lookup, hm]
    · rcases List.mem_cons.mp h with h1 | h1
      · exact absurd h1 hm
      · simp [List.lookup, beq_eq_false_iff_ne.mpr hm, ih h1]

/-- C7: `sorted(...)` produces a lexicographically ordered permutation of
the globbed file names, and the importer's main loop visits the files in
exactly that order, taking each file's name without its `.json` extension
as the collection name: over a directory of empty-collection files, the
run's output lists the per-file lines in sorted file-name order with the
stems as collection names, independent of the directory listing order. -/
theorem c7_sorted_processing_order :
    (∀ names : List String,
      (ImportData.sortStrings names).Pairwise (fun a b => a ≤ b) ∧
      (ImportData.sortStrings names).Perm names) ∧
    (∀ (post : Nat → PostResult) (argv : List String)
       (s : ImportData.ImpState) (names : List String),
      3 ≤ argv.length → names ≠ [] →
      (∀ n ∈ names, ImportData.isJsonName n = true) →
      (ImportData.main post
          ⟨true, names.map (fun n =>
            (n, Except.ok (Json.obj [("items", Json.arr [])])))⟩
          argv s).2.output =
        s.output ++
          ["Importing to " ++ baseOf argv ++ " from "
            ++ (argv[2]?).getD "" ++ "/", dashes] ++
          (ImportData.sortStrings names).map
            (fun n => "  No records found in " ++ ImportData.jsonStem n) ++
          [dashes,
           "Import complete: " ++ toString names.length ++ "/"
             ++ toString names.length ++ " collections imported"]) := by
  constructor
  · intro names
    exact ⟨(ImportData.sortStrings_sorted names).imp
        (fun h => ImportData.strLe_le h),
      ImportData.sortStrings_perm names⟩
  · intro post argv s names h3 hne hjson
    have hread : ∀ n ∈ ImportData.sortStrings names,
        ImportData.readFile ⟨true, names.map (fun n =>
          (n, Except.ok (Json.obj [("items", Json.arr [])])))⟩ n =
          .ok (Json.obj [("items", Json.arr [])]) := by
      intro n hn
      have hmem : n ∈ names :=
        (ImportData.sortStrings_perm names).mem_iff.mp hn
      simp [ImportData.readFile, lookup_map_const names _ n hmem]
    have hloop := ImportData.importLoop_empty_files post (baseOf argv)
      ⟨true, names.map (fun n =>
        (n, Except.ok (Json.obj [("items", Json.arr [])])))⟩
      (ImportData.sortStrings names) 0
      ⟨s.requests,
       s.output ++ ["Importing to " ++ baseOf argv ++ " from "
         ++ (argv[2]?).getD "" ++ "/", dashes]⟩
      hread
    have hlen : (ImportData.sortStrings names).length = names.length :=
      (ImportData.sortStrings_perm names).length_eq
    have hfilter : names.filter ImportData.isJsonName = names :=
      List.filter_eq_self.mpr hjson
    simp only [ImportData.main, if_neg (by omega : ¬argv.length < 3)]
    have hmapfst : List.map Prod.fst (List.map (fun n : String =>
        (n, (Except.ok (Json.obj [("items", Json.arr [])]) :
          Except Unit Json))) names) = names := map_fst_map_pair names _
    have hempty : names.isEmpty = false := by
      cases names with
      | nil => exact absurd rfl hne
      | cons a l => rfl
    rw [hmapfst, hfilter]
    simp only [hloop, hempty, hlen]
    simp [List.append_assoc]

/-- C7 witness: the files `b.json`, `a.json` listed in that order are
processed as `a` then `b`. -/
theorem c7_sorted_processing_order_witness :
    (ImportData.main (fun _ => PostResult.resp 200 "")
        ⟨true, ["b.json", "a.json"].map (fun n =>
          (n, Except.ok (Json.obj [("items", Json.arr [])])))⟩
        ["import_data.py", "http://x", "d"] ⟨[], []⟩).2.output =
      ["Importing to http://x from d/", dashes,
       "  No records found in a", "  No records found in b",
       dashes, "Import complete: 2/2 collections imported"] := by
  have h := c7_sorted_processing_order.2 (fun _ => PostResult.resp 200 "")
    ["import_data.py", "http://x", "d"] ⟨[], []⟩ ["b.json", "a.json"]
    (by decide) (by decide) (by decide)
  exact h.trans (by rfl)
